import Mathlib

/-!
Shallow embedding of `examples/table_2.rs`: a terminal table demo whose state
is a selection cursor, a viewport height, a content length, a generated record
list and a scrollbar, driven by a key-event loop.

Machine integers are embedded as `Nat`. Where the source performs unchecked
arithmetic (`+ 1` on `usize`/`u16`, `items.len() - 1` on `usize`) the embedding
wraps modulo the type's size, matching release-build semantics; debug builds
panic at exactly the points where the wrap is non-trivial, and the theorems
note where that matters. `saturating_sub` is `Nat` subtraction.
-/

/-- Modulus of Rust `usize` on a 64-bit target. -/
def USIZE_MOD : Nat := 2 ^ 64

/-- Modulus of Rust `u16`. -/
def U16_MOD : Nat := 2 ^ 16

/-- The tailwind palette entries referenced by `TableColors::new`. Only their
identity matters to the embedding, not their RGB values. -/
inductive Color where
  | slate_c950
  | slate_c900
  | slate_c200
  | emerald_c900
  | emerald_c400
  | emerald_c600
deriving DecidableEq

/-- `struct TableColors` from the source. -/
structure TableColors where
  buffer_bg : Color
  header_bg : Color
  header_fg : Color
  row_fg : Color
  selected_row_style_fg : Color
  selected_column_style_fg : Color
  selected_cell_style_fg : Color
  normal_row_color : Color
  alt_row_color : Color
  footer_border_color : Color
deriving DecidableEq

/-- `TableColors::new` with `palette = tailwind::EMERALD`. -/
def TableColors.new : TableColors :=
  { buffer_bg := .slate_c950,
    header_bg := .emerald_c900,
    header_fg := .slate_c200,
    row_fg := .slate_c200,
    selected_row_style_fg := .emerald_c400,
    selected_column_style_fg := .emerald_c400,
    selected_cell_style_fg := .emerald_c600,
    normal_row_color := .slate_c950,
    alt_row_color := .slate_c900,
    footer_border_color := .emerald_c400 }

/-- `struct Data`: one synthetic record, a name string and an email string. -/
structure Data where
  name : String
  email : String
deriving DecidableEq

/-- Modelled from the spec: the widget library's `TableState` (library code of
this repository, not under the provided sources) — the selection cursor: the
scroll offset, the selected row index and the selected column index. -/
structure TableState where
  offset : Nat
  selected : Option Nat
  selected_column : Option Nat
deriving DecidableEq

/-- Modelled from the spec: `TableState::default()` selects nothing. -/
def TableState.default : TableState :=
  { offset := 0, selected := none, selected_column := none }

/-- Modelled from the spec: `with_selected(i)` sets the selected row. -/
def TableState.with_selected (s : TableState) (i : Nat) : TableState :=
  { s with selected := some i }

/-- Modelled from the spec: `select(i)` sets the selected row. -/
def TableState.select (s : TableState) (i : Option Nat) : TableState :=
  { s with selected := i }

/-- Modelled from the spec: `select_next_column` moves the column cursor one
column right (to the first column when none is selected); clamping to the
column count happens at render time inside the library. -/
def TableState.select_next_column (s : TableState) : TableState :=
  { s with selected_column := some (match s.selected_column with
      | some i => i + 1
      | none => 0) }

/-- Modelled from the spec: `select_previous_column` moves the column cursor
one column left, saturating at the first column. -/
def TableState.select_previous_column (s : TableState) : TableState :=
  { s with selected_column := some (match s.selected_column with
      | some i => i - 1
      | none => 0) }

/-- Modelled from the spec: the widget library's `ScrollbarState` (library
code of this repository, not under the provided sources) — the scrollbar's
total content length and current position. -/
structure ScrollbarState where
  content_length : Nat
  position : Nat
deriving DecidableEq

/-- Modelled from the spec: `ScrollbarState::new(n)` starts at position 0. -/
def ScrollbarState.new (content_length : Nat) : ScrollbarState :=
  { content_length := content_length, position := 0 }

/-- Modelled from the spec: the library's `position(p)` builder stores the
given position (named `set_position` here because `position` is the field
projection). -/
def ScrollbarState.set_position (s : ScrollbarState) (p : Nat) : ScrollbarState :=
  { s with position := p }

/-- `generate_fake_names` from the source. The `fakeit` random generators are
abstracted as an oracle `gen` giving the record drawn at each iteration index;
`sorted_by(|a, b| a.name.cmp(&b.name))` is a stable sort by the lexicographic
order on `name` (UTF-8 byte order coincides with codepoint order). -/
def generate_fake_names (length : Nat) (gen : Nat → Data) : List Data :=
  ((List.range length).map gen).mergeSort (fun a b => decide (a.name ≤ b.name))

/-- `struct App` from the source. -/
structure App where
  state : TableState
  content_length : Nat
  items : List Data
  scroll_state : ScrollbarState
  colors : TableColors
  viewport_height : Nat
deriving DecidableEq

/-- `App::new`: 8 generated records, row 0 selected, viewport height 8. -/
def App.new (gen : Nat → Data) : App :=
  let content_length := 8
  let data_vec := generate_fake_names content_length gen
  { state := TableState.default.with_selected 0,
    scroll_state := ScrollbarState.new data_vec.length,
    colors := TableColors.new,
    content_length := content_length,
    items := data_vec,
    viewport_height := 8 }

/-- `App::next_row`. `(i + 1).min(self.items.len() - 1)` is unchecked `usize`
arithmetic: both the increment and the subtraction wrap modulo `2 ^ 64`
(release builds); a debug build panics exactly when `items` is empty (the
subtraction underflows) or `i` is `usize::MAX`. -/
def App.next_row (a : App) : App :=
  let i := match a.state.selected with
    | some i => min ((i + 1) % USIZE_MOD) ((a.items.length + (USIZE_MOD - 1)) % USIZE_MOD)
    | none => 0
  { a with state := a.state.select (some i),
           scroll_state := a.scroll_state.set_position i }

/-- `App::previous_row`; `i.saturating_sub(1)` is `Nat` subtraction. -/
def App.previous_row (a : App) : App :=
  let i := match a.state.selected with
    | some i => i - 1
    | none => 0
  { a with state := a.state.select (some i),
           scroll_state := a.scroll_state.set_position i }

/-- `App::next_column`. -/
def App.next_column (a : App) : App :=
  { a with state := a.state.select_next_column }

/-- `App::previous_column`. -/
def App.previous_column (a : App) : App :=
  { a with state := a.state.select_previous_column }

/-- `App::increase_viewport_height`: `self.viewport_height += 1` on a `u16`,
wrapping modulo `2 ^ 16` (a debug build panics at `u16::MAX`). -/
def App.increase_viewport_height (a : App) : App :=
  { a with viewport_height := (a.viewport_height + 1) % U16_MOD }

/-- `App::decrease_viewport_height`: `saturating_sub(1)`. -/
def App.decrease_viewport_height (a : App) : App :=
  { a with viewport_height := a.viewport_height - 1 }

/-- `App::increase_content_length`: `self.content_length += 1` on a `usize`
(wrapping modulo `2 ^ 64`), then the items are regenerated and the scrollbar
rebuilt. -/
def App.increase_content_length (a : App) (gen : Nat → Data) : App :=
  let content_length := (a.content_length + 1) % USIZE_MOD
  let items := generate_fake_names content_length gen
  { a with content_length := content_length,
           items := items,
           scroll_state := ScrollbarState.new items.length }

/-- `App::decrease_content_length`: `saturating_sub(1)`, then the items are
regenerated and the scrollbar rebuilt. -/
def App.decrease_content_length (a : App) (gen : Nat → Data) : App :=
  let content_length := a.content_length - 1
  let items := generate_fake_names content_length gen
  { a with content_length := content_length,
           items := items,
           scroll_state := ScrollbarState.new items.length }

/-- Crossterm key codes; the variants the example never names are collected
under `other`. -/
inductive KeyCode where
  | char (c : Char)
  | esc
  | up
  | down
  | left
  | right
  | other (n : Nat)
deriving DecidableEq

/-- Crossterm key event kinds. -/
inductive KeyEventKind where
  | press
  | release
  | repeatKind
deriving DecidableEq

/-- A crossterm key event: its code and kind. -/
structure KeyEvent where
  code : KeyCode
  kind : KeyEventKind
deriving DecidableEq

/-- Crossterm events: key events, and every other event kind (resize, mouse,
focus, paste) collected under `other` — the loop ignores their payloads. -/
inductive Event where
  | key (k : KeyEvent)
  | other (n : Nat)
deriving DecidableEq

/-- One step of the loop body: either the `'q'`/`Esc` arm returned `Ok(())`,
or the loop continues with the (possibly mutated) state. No arm produces an
error value. -/
inductive Step where
  | quit
  | cont (a : App)
deriving DecidableEq

/-- The `match key.code` dispatch inside `App::run`, written as the
equivalent first-match guard chain. -/
def App.handle_key (a : App) (gen : Nat → Data) (code : KeyCode) : Step :=
  if code = .char 'j' ∨ code = .down then .cont a.next_row
  else if code = .char 'k' ∨ code = .up then .cont a.previous_row
  else if code = .char 'J' then .cont a.increase_viewport_height
  else if code = .char 'K' then .cont a.decrease_viewport_height
  else if code = .char 'l' ∨ code = .right then .cont a.next_column
  else if code = .char 'h' ∨ code = .left then .cont a.previous_column
  else if code = .char 'H' then .cont (a.decrease_content_length gen)
  else if code = .char 'L' then .cont (a.increase_content_length gen)
  else if code = .char 'q' ∨ code = .esc then .quit
  else .cont a

/-- The event handling of one loop iteration: only key events whose kind is
`Press` are dispatched; everything else falls through to the next iteration
with the state untouched. -/
def App.handle_event (a : App) (gen : Nat → Data) (ev : Event) : Step :=
  match ev with
  | .key k => if k.kind = .press then a.handle_key gen k.code else .cont a
  | .other _ => .cont a

/-- One iteration's terminal interaction, as seen by the loop: `terminal.draw`
returned `Err(e)`, or `event::read` returned `Err(e)`, or an event was read. -/
inductive Iter (ε : Type) where
  | drawErr (e : ε)
  | readErr (e : ε)
  | ev (event : Event)
deriving DecidableEq

/-- The result of running `App::run` against a finite interaction trace:
`Ok(())`, `Err(e)`, or the trace ran out with the loop still going (carrying
the state it would continue from). -/
inductive Outcome (ε : Type) where
  | ok
  | err (e : ε)
  | stopped (a : App)
deriving DecidableEq

/-- `App::run`, over an explicit trace of terminal interactions: each
iteration draws (propagating a draw error with `?`), reads an event
(propagating a read error with `?`), and dispatches it. -/
def App.run {ε : Type} (gen : Nat → Data) : App → List (Iter ε) → Outcome ε
  | a, [] => .stopped a
  | _, .drawErr e :: _ => .err e
  | _, .readErr e :: _ => .err e
  | a, .ev v :: rest =>
    match a.handle_event gen v with
    | .quit => .ok
    | .cont a2 => a2.run gen rest

/-- The data of one rendered table row: its cells' contents, its foreground
and background colors and its height. -/
structure RowModel where
  cells : List String
  fg : Color
  bg : Color
  height : Nat
deriving DecidableEq

/-- The `rows` iterator of `App::render_table`: row `i` carries the two cells
`data.name()` and `data.email()`, the zebra background chosen by `i % 2`, and
height 1. -/
def App.render_table_rows (a : App) : List RowModel :=
  a.items.enum.map (fun p =>
    { cells := [p.2.name, p.2.email],
      fg := a.colors.row_fg,
      bg := match p.1 % 2 with
        | 0 => a.colors.normal_row_color
        | _ => a.colors.alt_row_color,
      height := 1 })

/-- A key press of code `c`, with `c` drawn from the set the loop dispatches
on; used to state which events are guaranteed to leave the state unchanged. -/
def mapped_key_press (ev : Event) : Bool :=
  match ev with
  | .key k =>
    k.kind == .press &&
      (k.code == .char 'j' || k.code == .char 'k' || k.code == .char 'J' ||
       k.code == .char 'K' || k.code == .char 'l' || k.code == .char 'h' ||
       k.code == .char 'H' || k.code == .char 'L' || k.code == .char 'q' ||
       k.code == .esc || k.code == .up || k.code == .down ||
       k.code == .left || k.code == .right)
  | .other _ => false

/-- A fixed record, for concrete witnesses. -/
def data0 : Data := { name := "ada", email := "ada@example.com" }

/-- A constant record oracle, for concrete witnesses. -/
def gen0 : Nat → Data := fun _ => data0

/-- The concrete start state, for concrete witnesses. -/
def app0 : App := App.new gen0

/-- The start state after eight `'H'` presses: `content_length` has been
decreased to 0, `items` is empty, and the selection is still `Some(0)`. -/
def app_emptied : App :=
  (fun a => App.decrease_content_length a gen0)^[8] (App.new gen0)

/-- The start state with the viewport height raised to `u16::MAX` (reachable
by 65527 `'J'` presses). -/
def app_viewport_max : App := { App.new gen0 with viewport_height := 65535 }

/-- A small literal state (two records, row 0 selected), for concrete
witnesses. -/
def app1 : App :=
  { state := { offset := 0, selected := some 0, selected_column := none },
    content_length := 2,
    items := [data0, data0],
    scroll_state := { content_length := 2, position := 0 },
    colors := TableColors.new,
    viewport_height := 8 }

/-- Claim C1 (code bug): the spec promises the selection cursor is always
clamped to valid bounds and that `next_row` never fails, even on the empty
items list reached by pressing `'H'` until the content length is 0. The code
slips there: from `App::new`, eight `'H'` presses leave `items` empty with
row 0 still selected, and the next `'j'` press evaluates
`(0 + 1).min(items.len() - 1)` whose `usize` subtraction underflows — a debug
build panics, a release build wraps to `usize::MAX` so the selection becomes
`Some(1)`, outside any valid bound of the empty list. -/
theorem next_row_escapes_bounds_on_empty_items :
    app_emptied.items = [] ∧ app_emptied.state.selected = some 0 ∧
    app_emptied.content_length = 0 ∧
    (app_emptied.next_row).state.selected = some 1 ∧
    (app_emptied.next_row).items.length = 0 ∧
    ¬ (1 ≤ (app_emptied.next_row).items.length - 1) := by
  have h : app_emptied.items = [] ∧ app_emptied.state.selected = some 0 ∧
      app_emptied.content_length = 0 := by
    simp [app_emptied, App.new, TableState.default, TableState.with_selected]
    norm_num [Function.iterate_succ_apply, App.decrease_content_length,
      generate_fake_names]
  refine ⟨h.1, h.2.1, h.2.2, ?_, ?_, ?_⟩
  · simp [App.next_row, h.1, h.2.1, USIZE_MOD, TableState.select]
  · simp [App.next_row, h.1]
  · simp [App.next_row, h.1]

/-- Claim C2: for every length `n` (and every outcome of the random
generators), the record list returned by `generate_fake_names` is sorted
lexicographically by the `name` field — every adjacent pair `a, b` satisfies
`a.name ≤ b.name`. -/
theorem generate_fake_names_sorted_by_name (n : Nat) (gen : Nat → Data) :
    List.Chain' (fun a b : Data => a.name ≤ b.name) (generate_fake_names n gen) := by
  apply List.Pairwise.chain'
  have h : List.Pairwise (fun a b : Data => decide (a.name ≤ b.name) = true)
      (((List.range n).map gen).mergeSort (fun a b => decide (a.name ≤ b.name))) :=
    List.sorted_mergeSort
      (fun a b c hab hbc => by
        simp only [decide_eq_true_eq] at *
        exact le_trans hab hbc)
      (fun a b => by
        simp only [Bool.or_eq_true, decide_eq_true_eq]
        exact le_total a.name b.name)
      ((List.range n).map gen)
  exact h.imp (fun hab => by simpa using hab)

/-- Claim C3: `generate_fake_names n` returns exactly `n` records, and every
`App` operation — construction, both content-length operations and all the
others — preserves the invariant `items.len() == content_length`. -/
theorem content_length_counts_items (a : App) (gen gen2 : Nat → Data) (n : Nat)
    (h : a.items.length = a.content_length) :
    (generate_fake_names n gen).length = n ∧
    (App.new gen).items.length = (App.new gen).content_length ∧
    (a.increase_content_length gen2).items.length =
      (a.increase_content_length gen2).content_length ∧
    (a.decrease_content_length gen2).items.length =
      (a.decrease_content_length gen2).content_length ∧
    (a.next_row).items.length = (a.next_row).content_length ∧
    (a.previous_row).items.length = (a.previous_row).content_length ∧
    (a.next_column).items.length = (a.next_column).content_length ∧
    (a.previous_column).items.length = (a.previous_column).content_length ∧
    (a.increase_viewport_height).items.length =
      (a.increase_viewport_height).content_length ∧
    (a.decrease_viewport_height).items.length =
      (a.decrease_viewport_height).content_length := by
  refine ⟨?_, ?_, ?_, ?_, h, h, h, h, h, h⟩ <;>
    simp [generate_fake_names, App.new, App.increase_content_length,
      App.decrease_content_length]

/-- Witness for C3 at a concrete state and length. -/
theorem content_length_counts_items_concrete :
    app1.items.length = app1.content_length ∧ (generate_fake_names 3 gen0).length = 3 :=
  ⟨by decide, (content_length_counts_items app1 gen0 gen0 3 (by decide)).1⟩

/-- Claim C4: row navigation is clamped increment/decrement by one. On a
non-empty items list (of `usize`-representable length), a selected row
`Some(i)` (with `i + 1` representable; `i = usize::MAX` would overflow, see
C1) moves to `min(i + 1, items.len() - 1)` under `next_row` and to
`i.saturating_sub(1)` — that is `i - 1` when `i > 0` and `0` when `i == 0` —
under `previous_row`; an absent selection moves to `Some(0)` under both. -/
theorem row_navigation_clamped (a : App) (hne : a.items ≠ [])
    (hlen : a.items.length < USIZE_MOD) :
    (∀ i, a.state.selected = some i → i + 1 < USIZE_MOD →
      (a.next_row).state.selected = some (min (i + 1) (a.items.length - 1)) ∧
      (a.previous_row).state.selected = some (i - 1)) ∧
    (a.state.selected = none →
      (a.next_row).state.selected = some 0 ∧
      (a.previous_row).state.selected = some 0) := by
  have hpos : 0 < a.items.length := List.length_pos.mpr hne
  have hM : 0 < USIZE_MOD := by norm_num [USIZE_MOD]
  constructor
  · intro i hsel hi
    constructor
    · simp only [App.next_row, hsel, TableState.select]
      have h1 : (i + 1) % USIZE_MOD = i + 1 := Nat.mod_eq_of_lt hi
      have h2 : (a.items.length + (USIZE_MOD - 1)) % USIZE_MOD =
          a.items.length - 1 := by
        have h3 : a.items.length + (USIZE_MOD - 1) =
            (a.items.length - 1) + USIZE_MOD := by omega
        rw [h3, Nat.add_mod_right]
        exact Nat.mod_eq_of_lt (by omega)
      rw [h1, h2]
    · simp only [App.previous_row, hsel, TableState.select]
  · intro hsel
    simp [App.next_row, App.previous_row, hsel, TableState.select]

/-- Witness for C4 at a concrete state with row 0 of 2 selected. -/
theorem row_navigation_clamped_concrete :
    (app1.next_row).state.selected = some (min (0 + 1) (app1.items.length - 1)) ∧
    (app1.previous_row).state.selected = some (0 - 1) :=
  (row_navigation_clamped app1 (by decide) (by decide)).1 0 rfl (by decide)

/-- Claim C5 counterexample: the claim says `increase_viewport_height`
increases the `u16` viewport height by exactly 1 in every `App` state; at
`viewport_height = 65535 = u16::MAX` the addition instead wraps to 0 (and a
debug build panics). -/
theorem increase_viewport_height_wraps_at_max :
    (app_viewport_max.increase_viewport_height).viewport_height ≠
      app_viewport_max.viewport_height + 1 ∧
    app_viewport_max.viewport_height = 65535 ∧
    (app_viewport_max.increase_viewport_height).viewport_height = 0 := by
  refine ⟨?_, rfl, ?_⟩ <;> simp [app_viewport_max, App.increase_viewport_height, U16_MOD]

/-- Claim C5 (amended): `increase_viewport_height` increases the viewport
height by exactly 1 whenever it is below `u16::MAX = 65535` (at 65535 the
`u16` addition overflows: wrap in release, panic in debug), and
`decrease_viewport_height` decreases it by exactly 1 when it is positive and
leaves it at 0 when it is 0. -/
theorem viewport_height_adjustment (a : App) :
    (a.viewport_height < 65535 →
      (a.increase_viewport_height).viewport_height = a.viewport_height + 1) ∧
    (0 < a.viewport_height →
      (a.decrease_viewport_height).viewport_height = a.viewport_height - 1) ∧
    (a.viewport_height = 0 →
      (a.decrease_viewport_height).viewport_height = 0) := by
  refine ⟨fun h => ?_, fun _ => rfl, fun h => ?_⟩
  · simp only [App.increase_viewport_height, U16_MOD]
    omega
  · simp [App.decrease_viewport_height, h]

/-- Witness for C5 at a concrete state with viewport height 8. -/
theorem viewport_height_adjustment_concrete :
    (app1.increase_viewport_height).viewport_height = app1.viewport_height + 1 ∧
    (app1.decrease_viewport_height).viewport_height = app1.viewport_height - 1 :=
  ⟨(viewport_height_adjustment app1).1 (by decide),
   (viewport_height_adjustment app1).2.1 (by decide)⟩

/-- Claim C7: every record is exactly a (name, email) pair of strings, and
the `rows` built by `render_table` give row `i` exactly the two cells
`data.name()` followed by `data.email()`. -/
theorem table_rows_are_name_email_cells (a : App) (i : Nat) (d : Data)
    (h : a.items[i]? = some d) :
    ((a.render_table_rows).map RowModel.cells)[i]? = some [d.name, d.email] ∧
    ∀ x : Data, x = ⟨x.name, x.email⟩ := by
  constructor
  · simp [App.render_table_rows, List.getElem?_map, List.getElem?_enum, h]
  · intro x
    cases x
    rfl

/-- Witness for C7 at row 0 of a concrete state. -/
theorem table_rows_are_name_email_cells_concrete :
    ((app1.render_table_rows).map RowModel.cells)[0]? = some [data0.name, data0.email] :=
  (table_rows_are_name_email_cells app1 0 data0 (by decide)).1

/-- Claim C8: an event that is not a key press with a mapped code — a key
event whose kind is not `Press`, a key press whose code is outside the
dispatched set, or a non-key event — leaves the whole `App` state unchanged:
the loop body continues with the state it was given. -/
theorem unmapped_events_leave_state_unchanged (a : App) (gen : Nat → Data)
    (ev : Event) (h : mapped_key_press ev = false) :
    a.handle_event gen ev = Step.cont a := by
  cases ev with
  | other n => rfl
  | key k =>
    obtain ⟨code, kind⟩ := k
    cases kind with
    | press =>
      simp only [mapped_key_press, beq_iff_eq, Bool.and_eq_false_imp,
        Bool.or_eq_false_iff, decide_eq_false_iff_not] at h
      simp_all [App.handle_event, App.handle_key]
    | release => simp [App.handle_event]
    | repeatKind => simp [App.handle_event]

/-- Witness for C8: a press of the unmapped key `'x'`. -/
theorem unmapped_events_leave_state_unchanged_concrete :
    app1.handle_event gen0 (Event.key ⟨KeyCode.char 'x', KeyEventKind.press⟩) =
      Step.cont app1 :=
  unmapped_events_leave_state_unchanged app1 gen0 _ (by decide)

/-- Claim C9: changing the content length never touches the selection — both
content-length operations leave the selected row, the selected column, and in
fact the whole `TableState` unchanged (in particular also when the shrunken
list leaves the old selected row out of bounds). -/
theorem content_length_ops_keep_selection (a : App) (gen : Nat → Data) :
    (a.increase_content_length gen).state.selected = a.state.selected ∧
    (a.increase_content_length gen).state.selected_column = a.state.selected_column ∧
    (a.decrease_content_length gen).state.selected = a.state.selected ∧
    (a.decrease_content_length gen).state.selected_column = a.state.selected_column ∧
    (a.increase_content_length gen).state = a.state ∧
    (a.decrease_content_length gen).state = a.state :=
  ⟨rfl, rfl, rfl, rfl, rfl, rfl⟩

/-- Claim C10: row navigation keeps the scrollbar synchronized with the
selection — immediately after `next_row` or `previous_row`, the position
stored in the scrollbar state is exactly the newly selected row index. -/
theorem scrollbar_position_tracks_selection (a : App) :
    (∃ i, (a.next_row).state.selected = some i ∧
      (a.next_row).scroll_state.position = i) ∧
    (∃ i, (a.previous_row).state.selected = some i ∧
      (a.previous_row).scroll_state.position = i) :=
  ⟨⟨_, rfl, rfl⟩, ⟨_, rfl, rfl⟩⟩

/-- The `'q'`/`Esc` arm is the only one that returns `Ok(())`: the dispatch
yields `Step.quit` exactly on a key press whose code is `'q'` or `Esc`. -/
theorem handle_event_quit_iff (a : App) (gen : Nat → Data) (ev : Event) :
    a.handle_event gen ev = Step.quit ↔
      ∃ k : KeyEvent, ev = Event.key k ∧ k.kind = KeyEventKind.press ∧
        (k.code = KeyCode.char 'q' ∨ k.code = KeyCode.esc) := by
  cases ev with
  | other n => simp [App.handle_event]
  | key k =>
    obtain ⟨code, kind⟩ := k
    cases kind with
    | press =>
      cases code with
      | char c =>
        by_cases h1 : c = 'j'
        · subst h1; simp [App.handle_event, App.handle_key]
        by_cases h2 : c = 'k'
        · subst h2; simp [App.handle_event, App.handle_key]
        by_cases h3 : c = 'J'
        · subst h3; simp [App.handle_event, App.handle_key]
        by_cases h4 : c = 'K'
        · subst h4; simp [App.handle_event, App.handle_key]
        by_cases h5 : c = 'l'
        · subst h5; simp [App.handle_event, App.handle_key]
        by_cases h6 : c = 'h'
        · subst h6; simp [App.handle_event, App.handle_key]
        by_cases h7 : c = 'H'
        · subst h7; simp [App.handle_event, App.handle_key]
        by_cases h8 : c = 'L'
        · subst h8; simp [App.handle_event, App.handle_key]
        by_cases h9 : c = 'q'
        · subst h9; simp [App.handle_event, App.handle_key]
        simp [App.handle_event, App.handle_key, h1, h2, h3, h4, h5, h6, h7, h8, h9]
      | esc => simp [App.handle_event, App.handle_key]
      | up => simp [App.handle_event, App.handle_key]
      | down => simp [App.handle_event, App.handle_key]
      | left => simp [App.handle_event, App.handle_key]
      | right => simp [App.handle_event, App.handle_key]
      | other n => simp [App.handle_event, App.handle_key]
    | release => simp [App.handle_event]
    | repeatKind => simp [App.handle_event]

/-- `run` returns `Err(e)` exactly when the loop reaches an iteration whose
`terminal.draw` or `event::read` returns `Err(e)`. -/
theorem run_err_iff {ε : Type} (gen : Nat → Data) (a : App) (tr : List (Iter ε)) (e : ε) :
    a.run gen tr = Outcome.err e ↔
      ∃ pre s rest, tr = pre ++ s :: rest ∧
        (s = Iter.drawErr e ∨ s = Iter.readErr e) ∧
        ∃ a2, a.run gen pre = Outcome.stopped a2 := by
  induction tr generalizing a with
  | nil =>
    constructor
    · intro h
      simp [App.run] at h
    · rintro ⟨pre, s, rest, htr, -, -⟩
      cases pre <;> simp at htr
  | cons hd tl ih =>
    cases hd with
    | drawErr e0 =>
      constructor
      · intro h
        simp only [App.run, Outcome.err.injEq] at h
        subst h
        exact ⟨[], Iter.drawErr e0, tl, rfl, Or.inl rfl, a, rfl⟩
      · rintro ⟨pre, s, rest, htr, hs, a2, hpre⟩
        cases pre with
        | nil =>
          injection htr with hs0 htl
          rcases hs with h | h
          · rw [← hs0] at h
            injection h with he
            simp [App.run, he]
          · rw [← hs0] at h
            simp at h
        | cons p ps =>
          injection htr with hp htl
          rw [← hp] at hpre
          simp [App.run] at hpre
    | readErr e0 =>
      constructor
      · intro h
        simp only [App.run, Outcome.err.injEq] at h
        subst h
        exact ⟨[], Iter.readErr e0, tl, rfl, Or.inr rfl, a, rfl⟩
      · rintro ⟨pre, s, rest, htr, hs, a2, hpre⟩
        cases pre with
        | nil =>
          injection htr with hs0 htl
          rcases hs with h | h
          · rw [← hs0] at h
            simp at h
          · rw [← hs0] at h
            injection h with he
            simp [App.run, he]
        | cons p ps =>
          injection htr with hp htl
          rw [← hp] at hpre
          simp [App.run] at hpre
    | ev v =>
      cases hv : a.handle_event gen v with
      | quit =>
        constructor
        · intro h
          simp [App.run, hv] at h
        · rintro ⟨pre, s, rest, htr, hs, a2, hpre⟩
          cases pre with
          | nil =>
            injection htr with hs0 htl
            rcases hs with h | h <;> rw [← hs0] at h <;> simp at h
          | cons p ps =>
            injection htr with hp htl
            rw [← hp] at hpre
            simp [App.run, hv] at hpre
      | cont a3 =>
        have hrun : a.run gen (Iter.ev v :: tl) = a3.run gen tl := by
          simp [App.run, hv]
        rw [hrun, ih a3]
        constructor
        · rintro ⟨pre, s, rest, htr, hs, a2, hpre⟩
          refine ⟨Iter.ev v :: pre, s, rest, by rw [htr]; rfl, hs, a2, ?_⟩
          simp [App.run, hv, hpre]
        · rintro ⟨pre, s, rest, htr, hs, a2, hpre⟩
          cases pre with
          | nil =>
            injection htr with hs0 htl
            rcases hs with h | h <;> rw [← hs0] at h <;> simp at h
          | cons p ps =>
            injection htr with hp htl
            rw [← hp] at hpre
            simp [App.run, hv] at hpre
            exact ⟨ps, s, rest, htl, hs, a2, hpre⟩

/-- `run` returns `Ok(())` exactly when the loop reaches a key press whose
code is `'q'` or `Esc`. -/
theorem run_ok_iff {ε : Type} (gen : Nat → Data) (a : App) (tr : List (Iter ε)) :
    a.run gen tr = Outcome.ok ↔
      ∃ pre k rest, tr = pre ++ Iter.ev (Event.key k) :: rest ∧
        k.kind = KeyEventKind.press ∧
        (k.code = KeyCode.char 'q' ∨ k.code = KeyCode.esc) ∧
        ∃ a2, a.run gen pre = Outcome.stopped a2 := by
  induction tr generalizing a with
  | nil =>
    constructor
    · intro h
      simp [App.run] at h
    · rintro ⟨pre, k, rest, htr, -, -⟩
      cases pre <;> simp at htr
  | cons hd tl ih =>
    cases hd with
    | drawErr e0 =>
      constructor
      · intro h
        simp [App.run] at h
      · rintro ⟨pre, k, rest, htr, hkind, hcode, a2, hpre⟩
        cases pre with
        | nil =>
          injection htr with hs0 htl
          simp at hs0
        | cons p ps =>
          injection htr with hp htl
          rw [← hp] at hpre
          simp [App.run] at hpre
    | readErr e0 =>
      constructor
      · intro h
        simp [App.run] at h
      · rintro ⟨pre, k, rest, htr, hkind, hcode, a2, hpre⟩
        cases pre with
        | nil =>
          injection htr with hs0 htl
          simp at hs0
        | cons p ps =>
          injection htr with hp htl
          rw [← hp] at hpre
          simp [App.run] at hpre
    | ev v =>
      cases hv : a.handle_event gen v with
      | quit =>
        have hq := (handle_event_quit_iff a gen v).mp hv
        obtain ⟨k, hkv, hkind, hcode⟩ := hq
        constructor
        · intro h
          exact ⟨[], k, tl, by rw [hkv]; rfl, hkind, hcode, a, rfl⟩
        · intro h
          simp [App.run, hv]
      | cont a3 =>
        have hrun : a.run gen (Iter.ev v :: tl) = a3.run gen tl := by
          simp [App.run, hv]
        rw [hrun, ih a3]
        constructor
        · rintro ⟨pre, k, rest, htr, hkind, hcode, a2, hpre⟩
          refine ⟨Iter.ev v :: pre, k, rest, by rw [htr]; rfl, hkind, hcode, a2, ?_⟩
          simp [App.run, hv, hpre]
        · rintro ⟨pre, k, rest, htr, hkind, hcode, a2, hpre⟩
          cases pre with
          | nil =>
            injection htr with hs0 htl
            injection hs0 with hvk
            have hquit : a.handle_event gen v = Step.quit :=
              (handle_event_quit_iff a gen v).mpr ⟨k, hvk, hkind, hcode⟩
            rw [hv] at hquit
            simp at hquit
          | cons p ps =>
            injection htr with hp htl
            rw [← hp] at hpre
            simp [App.run, hv] at hpre
            exact ⟨ps, k, rest, htl, hkind, hcode, a2, hpre⟩

/-- Claim C6: the only failure mode of `App::run` is propagating terminal I/O
errors — over any interaction trace, `run` returns `Err(e)` if and only if
the loop reaches an iteration whose `terminal.draw` or `event::read` returns
`Err(e)`, and it returns `Ok(())` if and only if the loop reaches a key press
with code `'q'` or `Esc`; key dispatch steps (`Step`) have no error-valued
outcome at all, so no key mutation itself produces an error value. -/
theorem run_errors_only_from_terminal_io {ε : Type} (gen : Nat → Data) (a : App)
    (tr : List (Iter ε)) :
    (∀ e : ε, a.run gen tr = Outcome.err e ↔
      ∃ pre s rest, tr = pre ++ s :: rest ∧
        (s = Iter.drawErr e ∨ s = Iter.readErr e) ∧
        ∃ a2, a.run gen pre = Outcome.stopped a2) ∧
    (a.run gen tr = Outcome.ok ↔
      ∃ pre k rest, tr = pre ++ Iter.ev (Event.key k) :: rest ∧
        k.kind = KeyEventKind.press ∧
        (k.code = KeyCode.char 'q' ∨ k.code = KeyCode.esc) ∧
        ∃ a2, a.run gen pre = Outcome.stopped a2) :=
  ⟨fun e => run_err_iff gen a tr e, run_ok_iff gen a tr⟩
